import Mathlib

/-!
Verification of the `JobDocument` model (src/app/models/job.py) of
kernelci-backend: construction defaults, accessor frame conditions,
`to_dict` serialization and `from_json` deserialization.

Python values appearing in a job document are embedded as `PyVal`;
mappings (Python dicts) as insertion-ordered association lists with
unique keys maintained by `dictInsert`.
-/

/-- A Python value as it can appear in a job document or a decoded
JSON object: `None`, booleans, strings and dicts. -/
inductive PyVal where
  | null
  | bool (b : Bool)
  | str (s : String)
  | map (entries : List (String × PyVal))

/-- A Python dict: insertion-ordered key/value list, keys unique. -/
abbrev Mapping := List (String × PyVal)

/-- Python dict assignment `m[k] = v`: replace in place when the key is
present (dicts keep the original insertion position), append otherwise. -/
def dictInsert : Mapping → String → PyVal → Mapping
  | [], k, v => [(k, v)]
  | p :: m, k, v => if p.1 = k then (k, v) :: m else p :: dictInsert m k v

/-- Python `m.pop(k)` with no default: the value at `k` together with
the dict with that entry removed, or `none` (a `KeyError`, which leaves
the dict unchanged) when `k` is absent. -/
def dictPop : Mapping → String → Option (PyVal × Mapping)
  | [], _ => Option.none
  | p :: m, k =>
    if p.1 = k then some (p.2, m)
    else
      match dictPop m k with
      | some (v, m2) => some (v, p :: m2)
      | none => Option.none

/-- Key constants imported by job.py from the `models` package (that
package is outside the snippet). Modelled from the spec: the mapping
representation uses the keys `_id`, `job`, `kernel`, `private`,
`status`, `updated`, `metadata`. -/
def ID_KEY : String := "_id"

def JOB_KEY : String := "job"

def KERNEL_KEY : String := "kernel"

def PRIVATE_KEY : String := "private"

def STATUS_KEY : String := "status"

def UPDATED_KEY : String := "updated"

def METADATA_KEY : String := "metadata"

def JOB_COLLECTION : String := "job"

/-! ## The exchange-format decoder

Modelled from the spec: `bson.json_util.loads` is an external
collaborator ("exchange-format text ... decoded into a mapping, fails
with DecodeError if malformed").  It is embedded as an executable
parser for object-notation text (null / true / false / strings /
objects); any text it cannot parse is malformed. -/

/-- Skip blanks, tabs, newlines. -/
def skipWs : List Char → List Char
  | [] => []
  | c :: cs => if c = ' ' ∨ c = '\n' ∨ c = '\t' ∨ c = '\r' then skipWs cs else c :: cs

/-- Characters of a string literal after its opening quote, and the
rest of the input after the closing quote. -/
def parseStringBody : List Char → Option (List Char × List Char)
  | [] => Option.none
  | c :: cs =>
    if c = '"' then some ([], cs)
    else
      match parseStringBody cs with
      | some (acc, rest) => some (c :: acc, rest)
      | none => Option.none

mutual

/-- One value of the exchange format, fuelled. -/
def parseVal : Nat → List Char → Option (PyVal × List Char)
  | 0, _ => Option.none
  | Nat.succ fuel, cs =>
    match skipWs cs with
    | '"' :: cs1 =>
      match parseStringBody cs1 with
      | some (chars, rest) => some (PyVal.str (String.mk chars), rest)
      | none => Option.none
    | 'n' :: 'u' :: 'l' :: 'l' :: rest => some (PyVal.null, rest)
    | 't' :: 'r' :: 'u' :: 'e' :: rest => some (PyVal.bool true, rest)
    | 'f' :: 'a' :: 'l' :: 's' :: 'e' :: rest => some (PyVal.bool false, rest)
    | '{' :: cs1 =>
      match skipWs cs1 with
      | '}' :: rest => some (PyVal.map [], rest)
      | cs2 => parseMembers fuel cs2 []
    | _ => Option.none

/-- The members of an object after its opening brace, fuelled. -/
def parseMembers : Nat → List Char → Mapping → Option (PyVal × List Char)
  | 0, _, _ => Option.none
  | Nat.succ fuel, cs, acc =>
    match skipWs cs with
    | '"' :: cs1 =>
      match parseStringBody cs1 with
      | none => Option.none
      | some (chars, cs2) =>
        match skipWs cs2 with
        | ':' :: cs3 =>
          match parseVal fuel cs3 with
          | none => Option.none
          | some (v, cs4) =>
            match skipWs cs4 with
            | ',' :: cs5 => parseMembers fuel cs5 (dictInsert acc (String.mk chars) v)
            | '}' :: cs5 => some (PyVal.map (dictInsert acc (String.mk chars) v), cs5)
            | _ => Option.none
        | _ => Option.none
    | _ => Option.none

end

/-- Modelled from the spec: `json_util.loads` — decode exchange-format
text, `none` when the text is malformed. -/
def loads (s : String) : Option PyVal :=
  match parseVal (s.length + 1) s.data with
  | some (v, rest) => if skipWs rest = [] then some v else Option.none
  | none => Option.none

/-! ## The JobDocument model

The instance state of a `JobDocument` (src lines 55-63): the base slot
`_name` (set by `BaseDocument.__init__`, modelled from the spec: the
base collaborator holds the identity supplied as `name`) and the six
slots `_private`, `_job`, `_kernel`, `_status`, `_updated`,
`_metadata` set by `JobDocument.__init__`; `extra` is the rest of the
instance dict: attributes created later under any other name. -/
structure JobDocument where
  name : PyVal
  «private» : PyVal
  job : PyVal
  kernel : PyVal
  status : PyVal
  updated : PyVal
  metadata : PyVal
  extra : Mapping

/-- `JobDocument.__init__(name, job=None, kernel=None)` (src 55-63):
store the identity, default `private` to `False`, `status`/`updated`
to `None` and `metadata` to the empty dict. -/
def JobDocument.init (name job kernel : PyVal) : JobDocument :=
  ⟨name, PyVal.bool false, job, kernel, PyVal.null, PyVal.null, PyVal.map [], []⟩

/-- The `collection` property (src 65-67): the constant `"job"`. -/
def JobDocument.collection (_ : JobDocument) : String :=
  JOB_COLLECTION

/-- The `private` property setter (src 77-80). -/
def JobDocument.set_private (d : JobDocument) (value : PyVal) : JobDocument :=
  { d with «private» := value }

/-- The `job` property setter (src 87-90). -/
def JobDocument.set_job (d : JobDocument) (value : PyVal) : JobDocument :=
  { d with job := value }

/-- The `kernel` property setter (src 97-100). -/
def JobDocument.set_kernel (d : JobDocument) (value : PyVal) : JobDocument :=
  { d with kernel := value }

/-- The `updated` property setter (src 111-117). -/
def JobDocument.set_updated (d : JobDocument) (value : PyVal) : JobDocument :=
  { d with updated := value }

/-- The `status` property setter (src 124-130). -/
def JobDocument.set_status (d : JobDocument) (value : PyVal) : JobDocument :=
  { d with status := value }

/-- The `metadata` property setter (src 140-146). -/
def JobDocument.set_metadata (d : JobDocument) (value : PyVal) : JobDocument :=
  { d with metadata := value }

/-- Modelled from the spec: `BaseDocument.to_dict` of the external base
collaborator — "a base toMapping() that this entity's toMapping()
extends", containing "at minimum the identity key". -/
def JobDocument.base_to_dict (d : JobDocument) : Mapping :=
  [(ID_KEY, d.name)]

/-- `JobDocument.to_dict` (src 148-156): the base dict with the six
job keys assigned on top, in source order. -/
def JobDocument.to_dict (d : JobDocument) : Mapping :=
  dictInsert (dictInsert (dictInsert (dictInsert (dictInsert (dictInsert
    d.base_to_dict PRIVATE_KEY d.«private») JOB_KEY d.job) KERNEL_KEY d.kernel)
    UPDATED_KEY d.updated) STATUS_KEY d.status) METADATA_KEY d.metadata

/-- The names exposed through property get/set pairs (src 69-146). -/
def PROPERTY_NAMES : List String :=
  [PRIVATE_KEY, JOB_KEY, KERNEL_KEY, STATUS_KEY, UPDATED_KEY, METADATA_KEY]

/-- The instance-dict slot an attribute name reads and writes: each of
the six properties delegates to its underscore slot (src 69-146);
every other name is a plain instance attribute. -/
def attrSlot (k : String) : String :=
  if PROPERTY_NAMES.contains k then "_" ++ k else k

/-- Write one instance-dict slot.  The seven named slots live in the
structure fields; any other slot lives in `extra`.  A property name
and its underscore slot (for instance `private` and `_private`) reach
the same branch through `attrSlot`, exactly as in Python, where the
setter writes the slot the direct assignment would. -/
def writeSlot (d : JobDocument) (slot : String) (v : PyVal) : JobDocument :=
  if slot = "_name" then { d with name := v }
  else if slot = "_private" then d.set_private v
  else if slot = "_job" then d.set_job v
  else if slot = "_kernel" then d.set_kernel v
  else if slot = "_status" then d.set_status v
  else if slot = "_updated" then d.set_updated v
  else if slot = "_metadata" then d.set_metadata v
  else { d with extra := dictInsert d.extra slot v }

/-- Read one instance-dict slot. -/
def readSlot (d : JobDocument) (slot : String) : Option PyVal :=
  if slot = "_name" then some d.name
  else if slot = "_private" then some d.«private»
  else if slot = "_job" then some d.job
  else if slot = "_kernel" then some d.kernel
  else if slot = "_status" then some d.status
  else if slot = "_updated" then some d.updated
  else if slot = "_metadata" then some d.metadata
  else d.extra.lookup slot

/-- Python `setattr(job_doc, k, v)` on a `JobDocument`: the property
`collection` (src 65-67) has no setter, so assigning it raises
`AttributeError` (`none`); a property name goes through its setter;
any other name becomes a plain instance attribute. -/
def setAttr (d : JobDocument) (k : String) (v : PyVal) : Option JobDocument :=
  if k = "collection" then Option.none
  else some (writeSlot d (attrSlot k) v)

/-- Python `getattr(job_doc, k)` for data attributes: the property
`collection` yields the constant; a property name reads its slot; any
other name reads the instance dict. -/
def getAttr (d : JobDocument) (k : String) : Option PyVal :=
  if k = "collection" then some (PyVal.str JOB_COLLECTION)
  else readSlot d (attrSlot k)

/-- The `setattr` loop of `from_json` (src 171-172), one entry at a
time in dict order; stops with `none` when an assignment raises. -/
def applySetattrs : JobDocument → Mapping → Option JobDocument
  | d, [] => some d
  | d, (k, v) :: rest =>
    match setAttr d k v with
    | some d2 => applySetattrs d2 rest
    | none => Option.none

/-- How `JobDocument.from_json` can fail: `json_util.loads` rejects the
text (`ValueError`), the decoded value is not a mapping so `.pop` is
absent (`AttributeError`), the identity key is missing (`KeyError`), or
a `setattr` hits the read-only `collection` property
(`AttributeError`). -/
inductive FromJsonError where
  | decodeError
  | notAMapping
  | missingIdentity
  | attributeError

/-- The argument of `from_json`: either exchange-format text or an
already-parsed mapping (src 165-166). -/
inductive JsonInput where
  | text (s : String)
  | mapping (m : Mapping)

/-- `from_json` once `json_obj` is a mapping (src 168-174): pop the
identity key, build a bare document, assign every remaining key. -/
def from_json_of_mapping (m : Mapping) : Except FromJsonError JobDocument :=
  match dictPop m ID_KEY with
  | none => Except.error FromJsonError.missingIdentity
  | some (name, rest) =>
    match applySetattrs (JobDocument.init name PyVal.null PyVal.null) rest with
    | some d => Except.ok d
    | none => Except.error FromJsonError.attributeError

/-- `JobDocument.from_json` (src 158-174). -/
def JobDocument.from_json : JsonInput → Except FromJsonError JobDocument
  | JsonInput.text s =>
    match loads s with
    | some (PyVal.map m) => from_json_of_mapping m
    | some _ => Except.error FromJsonError.notAMapping
    | none => Except.error FromJsonError.decodeError
  | JsonInput.mapping m => from_json_of_mapping m

/-- The state of a mapping argument after `from_json` returns or
raises: the call's only mutation of `json_obj` is the `pop` on the
identity key (src 168), which removes that entry when present and
leaves the dict untouched when the pop itself raises `KeyError`. -/
def from_json_argAfter (m : Mapping) : Mapping :=
  match dictPop m ID_KEY with
  | some (_, rest) => rest
  | none => m

/-! ## Dictionary lemmas -/

theorem lookup_cons_self (k : String) (v : PyVal) (m : Mapping) :
    ((k, v) :: m).lookup k = some v := by
  simp [List.lookup]

theorem lookup_cons_ne (k k1 : String) (v : PyVal) (m : Mapping) (h : k ≠ k1) :
    ((k1, v) :: m).lookup k = m.lookup k := by
  have hb : (k == k1) = false := beq_eq_false_iff_ne.mpr h
  simp [List.lookup, hb]

theorem lookup_dictInsert_self (m : Mapping) (k : String) (v : PyVal) :
    (dictInsert m k v).lookup k = some v := by
  induction m with
  | nil => simp [dictInsert, lookup_cons_self]
  | cons p m ih =>
    by_cases hp : p.1 = k
    · simp [dictInsert, hp, lookup_cons_self]
    · rw [dictInsert, if_neg hp, show p = (p.1, p.2) from rfl,
        lookup_cons_ne k p.1 p.2 _ (Ne.symm hp)]
      exact ih

theorem lookup_dictInsert_ne (m : Mapping) (k k2 : String) (v : PyVal) (h : k2 ≠ k) :
    (dictInsert m k v).lookup k2 = m.lookup k2 := by
  induction m with
  | nil =>
    rw [show dictInsert [] k v = [(k, v)] from rfl, lookup_cons_ne _ _ _ _ h]
  | cons p m ih =>
    by_cases hp : p.1 = k
    · subst hp
      rw [dictInsert, if_pos rfl, lookup_cons_ne _ _ _ _ h,
        show p = (p.1, p.2) from rfl, lookup_cons_ne _ _ _ _ h]
    · by_cases hp2 : k2 = p.1
      · subst hp2
        rw [dictInsert, if_neg hp, show p = (p.1, p.2) from rfl,
          lookup_cons_self, lookup_cons_self]
      · rw [dictInsert, if_neg hp, show p = (p.1, p.2) from rfl,
          lookup_cons_ne _ _ _ _ hp2, lookup_cons_ne _ _ _ _ hp2]
        exact ih

theorem lookup_none_of_not_mem (m : Mapping) (k : String) (h : k ∉ m.map Prod.fst) :
    m.lookup k = Option.none := by
  induction m with
  | nil => rfl
  | cons p m ih =>
    rw [List.map_cons, List.mem_cons, not_or] at h
    rw [show p = (p.1, p.2) from rfl, lookup_cons_ne _ _ _ _ h.1]
    exact ih h.2

theorem dictPop_none_of_not_mem (m : Mapping) (k : String) (h : k ∉ m.map Prod.fst) :
    dictPop m k = Option.none := by
  induction m with
  | nil => rfl
  | cons p m ih =>
    rw [List.map_cons, List.mem_cons, not_or] at h
    simp [dictPop, Ne.symm h.1, ih h.2]

theorem dictPop_some_of_mem (m : Mapping) (k : String) (h : k ∈ m.map Prod.fst) :
    ∃ v rest, dictPop m k = some (v, rest) ∧ List.Sublist rest m ∧
      rest.length + 1 = m.length ∧ ∀ p, p ∈ m → p.1 ≠ k → p ∈ rest := by
  induction m with
  | nil => simp at h
  | cons q m ih =>
    by_cases hq : q.1 = k
    · refine ⟨q.2, m, by simp [dictPop, hq], List.sublist_cons_self q m, rfl, ?_⟩
      intro p hp hpk
      rcases List.mem_cons.mp hp with rfl | hm
      · exact absurd hq hpk
      · exact hm
    · have hk : k ∈ m.map Prod.fst := by
        rw [List.map_cons, List.mem_cons] at h
        rcases h with h1 | h2
        · exact absurd h1.symm hq
        · exact h2
      obtain ⟨v, rest, hpop, hsub, hlen, hmem⟩ := ih hk
      refine ⟨v, q :: rest, by simp [dictPop, hq, hpop], List.Sublist.cons₂ q hsub, by simp [← hlen], ?_⟩
      intro p hp hpk
      rcases List.mem_cons.mp hp with rfl | hm
      · exact List.mem_cons_self p rest
      · exact List.mem_cons_of_mem q (hmem p hm hpk)

theorem dictPop_not_mem (m : Mapping) (k : String) (v : PyVal) (rest : Mapping)
    (hnd : (m.map Prod.fst).Nodup) (h : dictPop m k = some (v, rest)) :
    k ∉ rest.map Prod.fst := by
  induction m generalizing rest with
  | nil => simp [dictPop] at h
  | cons q m ih =>
    rw [List.map_cons, List.nodup_cons] at hnd
    by_cases hq : q.1 = k
    · simp only [dictPop, if_pos hq, Option.some.injEq, Prod.mk.injEq] at h
      obtain ⟨rfl, rfl⟩ := h
      exact hq ▸ hnd.1
    · cases hdm : dictPop m k with
      | none => simp [dictPop, hq, hdm] at h
      | some pr =>
        obtain ⟨v2, m2⟩ := pr
        simp only [dictPop, if_neg hq, hdm, Option.some.injEq, Prod.mk.injEq] at h
        obtain ⟨rfl, rfl⟩ := h
        rw [List.map_cons, List.mem_cons, not_or]
        exact ⟨Ne.symm hq, ih m2 hnd.2 hdm⟩

/-! ## Attribute-slot lemmas -/

theorem readSlot_writeSlot_self (d : JobDocument) (slot : String) (v : PyVal) :
    readSlot (writeSlot d slot v) slot = some v := by
  simp only [writeSlot]
  split_ifs with h1 h2 h3 h4 h5 h6 h7
  · subst h1; simp [readSlot]
  · subst h2; simp [readSlot, JobDocument.set_private]
  · subst h3; simp [readSlot, JobDocument.set_job]
  · subst h4; simp [readSlot, JobDocument.set_kernel]
  · subst h5; simp [readSlot, JobDocument.set_status]
  · subst h6; simp [readSlot, JobDocument.set_updated]
  · subst h7; simp [readSlot, JobDocument.set_metadata]
  · simp [readSlot, h1, h2, h3, h4, h5, h6, h7, lookup_dictInsert_self]

theorem readSlot_writeSlot_ne (d : JobDocument) (s1 s2 : String) (v : PyVal) (h : s1 ≠ s2) :
    readSlot (writeSlot d s2 v) s1 = readSlot d s1 := by
  simp only [writeSlot]
  split_ifs with h1 h2 h3 h4 h5 h6 h7
  · subst h1; simp [readSlot, h]
  · subst h2; simp [readSlot, JobDocument.set_private, h]
  · subst h3; simp [readSlot, JobDocument.set_job, h]
  · subst h4; simp [readSlot, JobDocument.set_kernel, h]
  · subst h5; simp [readSlot, JobDocument.set_status, h]
  · subst h6; simp [readSlot, JobDocument.set_updated, h]
  · subst h7; simp [readSlot, JobDocument.set_metadata, h]
  · simp [readSlot, lookup_dictInsert_ne _ _ _ _ h]

theorem getAttr_writeSlot_self (d : JobDocument) (k : String) (v : PyVal)
    (hk : k ≠ "collection") :
    getAttr (writeSlot d (attrSlot k) v) k = some v := by
  simp [getAttr, hk, readSlot_writeSlot_self]

theorem getAttr_writeSlot_ne (d : JobDocument) (s : String) (v : PyVal) (k : String)
    (h : s ≠ attrSlot k) :
    getAttr (writeSlot d s v) k = getAttr d k := by
  by_cases hk : k = "collection"
  · simp [getAttr, hk]
  · simp [getAttr, hk, readSlot_writeSlot_ne _ _ _ _ (Ne.symm h)]

theorem applySetattrs_frame (l : Mapping) (d2 : JobDocument) (k : String) (d : JobDocument)
    (hrun : applySetattrs d l = some d2)
    (hk : ∀ p ∈ l, attrSlot p.1 ≠ attrSlot k) :
    getAttr d2 k = getAttr d k := by
  induction l generalizing d with
  | nil =>
    simp only [applySetattrs, Option.some.injEq] at hrun
    rw [hrun]
  | cons p l ih =>
    obtain ⟨k0, v0⟩ := p
    by_cases hc : k0 = "collection"
    · simp [applySetattrs, setAttr, hc] at hrun
    · have hset : setAttr d k0 v0 = some (writeSlot d (attrSlot k0) v0) := by
        simp [setAttr, hc]
      simp only [applySetattrs, hset] at hrun
      rw [ih (writeSlot d (attrSlot k0) v0) hrun
        (fun p hp => hk p (List.mem_cons_of_mem _ hp))]
      exact getAttr_writeSlot_ne d (attrSlot k0) v0 k (hk (k0, v0) (List.mem_cons_self _ _))

theorem applySetattrs_spec (l : Mapping) (d : JobDocument)
    (hcol : "collection" ∉ l.map Prod.fst)
    (hslots : (l.map (fun p => attrSlot p.1)).Nodup) :
    ∃ d2, applySetattrs d l = some d2 ∧ ∀ k v, (k, v) ∈ l → getAttr d2 k = some v := by
  induction l generalizing d with
  | nil => exact ⟨d, rfl, by simp⟩
  | cons p l ih =>
    obtain ⟨k0, v0⟩ := p
    rw [List.map_cons, List.mem_cons, not_or] at hcol
    rw [List.map_cons, List.nodup_cons] at hslots
    have hc : k0 ≠ "collection" := fun hh => hcol.1 hh.symm
    have hset : setAttr d k0 v0 = some (writeSlot d (attrSlot k0) v0) := by
      simp [setAttr, hc]
    obtain ⟨d2, hrun, hread⟩ := ih (writeSlot d (attrSlot k0) v0) hcol.2 hslots.2
    refine ⟨d2, by simp only [applySetattrs, hset]; exact hrun, ?_⟩
    intro k v hkv
    rcases List.mem_cons.mp hkv with heq | hm
    · rw [Prod.mk.injEq] at heq
      obtain ⟨rfl, rfl⟩ := heq
      rw [applySetattrs_frame l d2 k (writeSlot d (attrSlot k) v) hrun
        (fun p hp h2 => hslots.1 (h2 ▸ List.mem_map_of_mem _ hp))]
      exact getAttr_writeSlot_self d k v hc
    · exact hread k v hm

/-! ## The claims -/

/-- Claim C1: round-trip law — for any JobDocument whose identity name
was set consistently with its job/kernel fields at construction,
`to_dict` followed by `from_json` yields an instance whose private,
job, kernel, updated, status and metadata fields equal the
original's. -/
theorem jobdoc_roundtrip (d : JobDocument)
    (_h : ∃ j k, d.job = PyVal.str j ∧ d.kernel = PyVal.str k ∧
      d.name = PyVal.str (j ++ "-" ++ k)) :
    ∃ d2, JobDocument.from_json (JsonInput.mapping d.to_dict) = Except.ok d2 ∧
      d2.«private» = d.«private» ∧ d2.job = d.job ∧ d2.kernel = d.kernel ∧
      d2.updated = d.updated ∧ d2.status = d.status ∧ d2.metadata = d.metadata :=
  ⟨⟨d.name, d.«private», d.job, d.kernel, d.status, d.updated, d.metadata, []⟩,
    rfl, rfl, rfl, rfl, rfl, rfl, rfl⟩

/-- Witness for C1 at the consistently-named document
`init "myjob-3.10" "myjob" "3.10"`. -/
theorem jobdoc_roundtrip_witness :
    (∃ j k, PyVal.str "myjob" = PyVal.str j ∧ PyVal.str "3.10" = PyVal.str k ∧
      PyVal.str "myjob-3.10" = PyVal.str (j ++ "-" ++ k)) ∧
    ∃ d2, JobDocument.from_json (JsonInput.mapping
        (JobDocument.init (PyVal.str "myjob-3.10") (PyVal.str "myjob")
          (PyVal.str "3.10")).to_dict) = Except.ok d2 ∧
      d2.«private» = PyVal.bool false ∧ d2.job = PyVal.str "myjob" ∧
      d2.kernel = PyVal.str "3.10" ∧ d2.updated = PyVal.null ∧
      d2.status = PyVal.null ∧ d2.metadata = PyVal.map [] :=
  ⟨⟨"myjob", "3.10", rfl, rfl, rfl⟩,
    jobdoc_roundtrip _ ⟨"myjob", "3.10", rfl, rfl, rfl⟩⟩

/-- Claim C2: `init "myjob-3.10" "myjob" "3.10"` then `to_dict`
produces exactly the seven-entry mapping of the spec scenario. -/
theorem to_dict_myjob_scenario :
    (JobDocument.init (PyVal.str "myjob-3.10") (PyVal.str "myjob")
        (PyVal.str "3.10")).to_dict =
      [("_id", PyVal.str "myjob-3.10"), ("private", PyVal.bool false),
       ("job", PyVal.str "myjob"), ("kernel", PyVal.str "3.10"),
       ("updated", PyVal.null), ("status", PyVal.null),
       ("metadata", PyVal.map [])] := rfl

/-- Claim C3: for every mapping lacking the identity key, `from_json`
fails with the missing-identity error (the `KeyError` of the pop)
rather than returning an instance. -/
theorem from_json_missing_identity (m : Mapping) (h : "_id" ∉ m.map Prod.fst) :
    JobDocument.from_json (JsonInput.mapping m) =
      Except.error FromJsonError.missingIdentity := by
  show from_json_of_mapping m = _
  unfold from_json_of_mapping
  rw [show (ID_KEY : String) = "_id" from rfl, dictPop_none_of_not_mem m "_id" h]

/-- Witness for C3 at `{"job": "x", "kernel": "y"}`. -/
theorem from_json_missing_identity_witness :
    ("_id" ∉ ([("job", PyVal.str "x"), ("kernel", PyVal.str "y")] : Mapping).map Prod.fst) ∧
    JobDocument.from_json (JsonInput.mapping
        [("job", PyVal.str "x"), ("kernel", PyVal.str "y")]) =
      Except.error FromJsonError.missingIdentity :=
  ⟨by decide, from_json_missing_identity _ (by decide)⟩

/-- Claim C4: for every text the decoder cannot parse, `from_json`
fails with the decode error rather than returning an instance. -/
theorem from_json_decode_failure (s : String) (h : loads s = Option.none) :
    JobDocument.from_json (JsonInput.text s) =
      Except.error FromJsonError.decodeError := by
  simp only [JobDocument.from_json]
  rw [h]

/-- Witness for C4 at the malformed text of the spec scenario. -/
theorem from_json_decode_failure_witness :
    loads "{not valid}" = Option.none ∧
    JobDocument.from_json (JsonInput.text "{not valid}") =
      Except.error FromJsonError.decodeError :=
  ⟨rfl, from_json_decode_failure _ rfl⟩

/-- Counterexample to claim C5 as stated: the input mapping
`{"_id": "a", "collection": "x"}` contains the identity key, but its
remaining key `collection` is not assigned on a returned instance —
`setattr` hits the read-only `collection` property (src 65-67) and
`from_json` raises `AttributeError` instead of returning. -/
theorem from_json_collection_key_rejected :
    JobDocument.from_json (JsonInput.mapping
        [("_id", PyVal.str "a"), ("collection", PyVal.str "x")]) =
      Except.error FromJsonError.attributeError := rfl

/-- Claim C5 (amended): `from_json` applies every non-identity key of
the input, including keys with no declared field, as an attribute
assignment, provided no key is `collection` (whose read-only property
makes the assignment raise) and no two keys write the same underlying
attribute slot: then an instance is returned on which every remaining
key reads back its input value. -/
theorem from_json_applies_remaining_keys (m : Mapping)
    (hslots : (m.map (fun p => attrSlot p.1)).Nodup)
    (hcol : "collection" ∉ m.map Prod.fst)
    (hid : "_id" ∈ m.map Prod.fst) :
    ∃ d, JobDocument.from_json (JsonInput.mapping m) = Except.ok d ∧
      ∀ k v, (k, v) ∈ m → k ≠ "_id" → getAttr d k = some v := by
  obtain ⟨nm, rest, hpop, hsub, hlen, hmem⟩ := dictPop_some_of_mem m "_id" hid
  have hcol2 : "collection" ∉ rest.map Prod.fst :=
    fun hin => hcol ((hsub.map Prod.fst).subset hin)
  have hslots2 : (rest.map (fun p => attrSlot p.1)).Nodup :=
    hslots.sublist (hsub.map _)
  obtain ⟨d, hrun, hread⟩ :=
    applySetattrs_spec rest (JobDocument.init nm PyVal.null PyVal.null) hcol2 hslots2
  refine ⟨d, ?_, fun k v hkv hknid => hread k v (hmem (k, v) hkv hknid)⟩
  show from_json_of_mapping m = _
  unfold from_json_of_mapping
  rw [show (ID_KEY : String) = "_id" from rfl, hpop]
  show (match applySetattrs (JobDocument.init nm PyVal.null PyVal.null) rest with
    | some d => Except.ok d
    | none => Except.error FromJsonError.attributeError) = Except.ok d
  rw [hrun]

/-- Witness for the amended C5 at a mapping with a declared key, an
undeclared key and the identity key. -/
theorem from_json_applies_remaining_keys_witness :
    ((([("_id", PyVal.str "a"), ("foo", PyVal.str "bar"),
        ("status", PyVal.str "PASS")] : Mapping).map (fun p => attrSlot p.1)).Nodup ∧
      "collection" ∉ ([("_id", PyVal.str "a"), ("foo", PyVal.str "bar"),
        ("status", PyVal.str "PASS")] : Mapping).map Prod.fst ∧
      "_id" ∈ ([("_id", PyVal.str "a"), ("foo", PyVal.str "bar"),
        ("status", PyVal.str "PASS")] : Mapping).map Prod.fst) ∧
    ∃ d, JobDocument.from_json (JsonInput.mapping
        [("_id", PyVal.str "a"), ("foo", PyVal.str "bar"),
         ("status", PyVal.str "PASS")]) = Except.ok d ∧
      ∀ k v, (k, v) ∈ ([("_id", PyVal.str "a"), ("foo", PyVal.str "bar"),
        ("status", PyVal.str "PASS")] : Mapping) → k ≠ "_id" → getAttr d k = some v :=
  ⟨⟨by decide, by decide, by decide⟩,
    from_json_applies_remaining_keys _ (by decide) (by decide) (by decide)⟩

/-- Claim C6: `from_json {"_id": "a-b", "status": "PASS", "metadata":
{"git_commit": "abc123"}}` returns a record with that status and
metadata and with null job and kernel. -/
theorem from_json_ab_scenario :
    ∃ d, JobDocument.from_json (JsonInput.mapping
        [("_id", PyVal.str "a-b"), ("status", PyVal.str "PASS"),
         ("metadata", PyVal.map [("git_commit", PyVal.str "abc123")])]) =
      Except.ok d ∧
      d.status = PyVal.str "PASS" ∧
      d.metadata = PyVal.map [("git_commit", PyVal.str "abc123")] ∧
      d.job = PyVal.null ∧ d.kernel = PyVal.null :=
  ⟨⟨PyVal.str "a-b", PyVal.bool false, PyVal.null, PyVal.null, PyVal.str "PASS",
    PyVal.null, PyVal.map [("git_commit", PyVal.str "abc123")], []⟩,
    rfl, rfl, rfl, rfl, rfl⟩

/-- Claim C7: every freshly constructed JobDocument has
`private == False`, `metadata == {}` (never null), `status == None`
and `updated == None`. -/
theorem init_field_defaults (name job kernel : PyVal) :
    (JobDocument.init name job kernel).«private» = PyVal.bool false ∧
    (JobDocument.init name job kernel).metadata = PyVal.map [] ∧
    (JobDocument.init name job kernel).status = PyVal.null ∧
    (JobDocument.init name job kernel).updated = PyVal.null :=
  ⟨rfl, rfl, rfl, rfl⟩

/-- Claim C8: each field setter changes only its own field — for every
document and assigned value, every other field (in particular the
identity `name`, so the id is never recomputed when job or kernel is
mutated) keeps its value, and the setter's own field takes the
assigned value. -/
theorem setters_change_only_own_field (d : JobDocument) (v : PyVal) :
    ((d.set_private v).«private» = v ∧ (d.set_private v).name = d.name ∧
      (d.set_private v).job = d.job ∧ (d.set_private v).kernel = d.kernel ∧
      (d.set_private v).status = d.status ∧ (d.set_private v).updated = d.updated ∧
      (d.set_private v).metadata = d.metadata ∧ (d.set_private v).extra = d.extra) ∧
    ((d.set_job v).job = v ∧ (d.set_job v).name = d.name ∧
      (d.set_job v).«private» = d.«private» ∧ (d.set_job v).kernel = d.kernel ∧
      (d.set_job v).status = d.status ∧ (d.set_job v).updated = d.updated ∧
      (d.set_job v).metadata = d.metadata ∧ (d.set_job v).extra = d.extra) ∧
    ((d.set_kernel v).kernel = v ∧ (d.set_kernel v).name = d.name ∧
      (d.set_kernel v).«private» = d.«private» ∧ (d.set_kernel v).job = d.job ∧
      (d.set_kernel v).status = d.status ∧ (d.set_kernel v).updated = d.updated ∧
      (d.set_kernel v).metadata = d.metadata ∧ (d.set_kernel v).extra = d.extra) ∧
    ((d.set_status v).status = v ∧ (d.set_status v).name = d.name ∧
      (d.set_status v).«private» = d.«private» ∧ (d.set_status v).job = d.job ∧
      (d.set_status v).kernel = d.kernel ∧ (d.set_status v).updated = d.updated ∧
      (d.set_status v).metadata = d.metadata ∧ (d.set_status v).extra = d.extra) ∧
    ((d.set_updated v).updated = v ∧ (d.set_updated v).name = d.name ∧
      (d.set_updated v).«private» = d.«private» ∧ (d.set_updated v).job = d.job ∧
      (d.set_updated v).kernel = d.kernel ∧ (d.set_updated v).status = d.status ∧
      (d.set_updated v).metadata = d.metadata ∧ (d.set_updated v).extra = d.extra) ∧
    ((d.set_metadata v).metadata = v ∧ (d.set_metadata v).name = d.name ∧
      (d.set_metadata v).«private» = d.«private» ∧ (d.set_metadata v).job = d.job ∧
      (d.set_metadata v).kernel = d.kernel ∧ (d.set_metadata v).status = d.status ∧
      (d.set_metadata v).updated = d.updated ∧ (d.set_metadata v).extra = d.extra) :=
  ⟨⟨rfl, rfl, rfl, rfl, rfl, rfl, rfl, rfl⟩,
    ⟨rfl, rfl, rfl, rfl, rfl, rfl, rfl, rfl⟩,
    ⟨rfl, rfl, rfl, rfl, rfl, rfl, rfl, rfl⟩,
    ⟨rfl, rfl, rfl, rfl, rfl, rfl, rfl, rfl⟩,
    ⟨rfl, rfl, rfl, rfl, rfl, rfl, rfl, rfl⟩,
    ⟨rfl, rfl, rfl, rfl, rfl, rfl, rfl, rfl⟩⟩

/-- Claim C9: on a mapping argument that contains the identity key,
`from_json` mutates the caller's dict — after the call the identity
key has been popped, so the mapping no longer holds it and differs
from its initial value. -/
theorem from_json_removes_id_from_arg (m : Mapping)
    (hnd : (m.map Prod.fst).Nodup) (hid : "_id" ∈ m.map Prod.fst) :
    (from_json_argAfter m).lookup "_id" = Option.none ∧
      from_json_argAfter m ≠ m := by
  obtain ⟨v, rest, hpop, hsub, hlen, hmem⟩ := dictPop_some_of_mem m "_id" hid
  have hrest : from_json_argAfter m = rest := by
    unfold from_json_argAfter
    rw [show (ID_KEY : String) = "_id" from rfl, hpop]
  rw [hrest]
  refine ⟨lookup_none_of_not_mem rest "_id" (dictPop_not_mem m "_id" v rest hnd hpop), ?_⟩
  intro he
  rw [he] at hlen
  omega

/-- Witness for C9 at `{"_id": "a", "job": "x"}`. -/
theorem from_json_removes_id_from_arg_witness :
    ((([("_id", PyVal.str "a"), ("job", PyVal.str "x")] : Mapping).map Prod.fst).Nodup ∧
      "_id" ∈ ([("_id", PyVal.str "a"), ("job", PyVal.str "x")] : Mapping).map Prod.fst) ∧
    (from_json_argAfter [("_id", PyVal.str "a"), ("job", PyVal.str "x")]).lookup "_id" =
      Option.none ∧
    from_json_argAfter [("_id", PyVal.str "a"), ("job", PyVal.str "x")] ≠
      [("_id", PyVal.str "a"), ("job", PyVal.str "x")] :=
  ⟨⟨by decide, by decide⟩,
    from_json_removes_id_from_arg _ (by decide) (by decide)⟩

/-- Claim C10: `to_dict` emits exactly the identity key plus the six
job keys, whatever the document's state, so any extra attribute
acquired during `from_json` from an unknown input key is absent from
the `to_dict` output. -/
theorem to_dict_exact_keys (d : JobDocument) :
    d.to_dict.map Prod.fst =
      ["_id", "private", "job", "kernel", "updated", "status", "metadata"] ∧
    ∀ k, k ∉ (["_id", "private", "job", "kernel", "updated", "status",
        "metadata"] : List String) →
      d.to_dict.lookup k = Option.none := by
  refine ⟨rfl, fun k hk => lookup_none_of_not_mem _ _ ?_⟩
  intro hmem
  rw [show d.to_dict.map Prod.fst =
    ["_id", "private", "job", "kernel", "updated", "status", "metadata"] from rfl] at hmem
  exact hk hmem

/-- Witness for C10: an unknown key set by `from_json` does not appear
in the `to_dict` output. -/
theorem to_dict_exact_keys_witness :
    ("foo" ∉ (["_id", "private", "job", "kernel", "updated", "status",
        "metadata"] : List String)) ∧
    (JobDocument.init PyVal.null PyVal.null PyVal.null).to_dict.lookup "foo" =
      Option.none :=
  ⟨by decide, (to_dict_exact_keys _).2 "foo" (by decide)⟩
